import Mathlib

/-
Shallow embedding of the payment engine (src/clients.rs, src/transactions.rs,
src/lib.rs).

Modelling choices:
* `f64` amounts are modelled as exact rationals (`ℚ`): every operation the
  engine performs on amounts is addition, subtraction and comparison, and the
  claims under study are about that exact field arithmetic, not about binary
  floating-point rounding.
* `u32` identifiers are modelled as `ℕ`; identifiers are only compared for
  equality, never subjected to wrap-around arithmetic.
* The two `HashMap`s (`ClientAccounts.inner`, `MoneyOperationsRegister.inner`)
  are modelled as functions into `Option`, with pointwise insertion; in-place
  mutation through `&mut` references is translated to explicit write-back of
  the updated value at the key it was read from.
* Rust's `Result<(), TransactionError>` combined with in-place mutation is
  translated as `EngineState → Option TransactionError × EngineState`: each
  `return Err(..)` in the source yields `(some err, state-at-that-point)`, so
  the embedding records exactly what state a failing path leaves behind.
-/

abbrev ClientId := ℕ

abbrev TransactionId := ℕ

/-- Error type of `src/transactions.rs` (`TransactionError`). -/
inductive TransactionError where
  | AlreadyExists (id : TransactionId)
  | LockedAccount (id : ClientId)
  | MissingClient (id : ClientId)
  | MissingOperation (id : TransactionId)
  | NotEnoughFunds
  | WrongTransactionState
deriving DecidableEq

/-- Per-client account state (`Client` in src/clients.rs): `funds` is the
available balance, `held_funds` the held balance. -/
structure Client where
  funds : ℚ
  held_funds : ℚ
  locked : Bool
deriving DecidableEq

def Client.increase_funds (c : Client) (amount : ℚ) : Client :=
  { c with funds := c.funds + amount }

def Client.decrease_funds (c : Client) (amount : ℚ) : Client :=
  { c with funds := c.funds - amount }

def Client.has_enough_funds (c : Client) (amount : ℚ) : Bool :=
  c.funds ≥ amount

def Client.hold_funds (c : Client) (amount : ℚ) : Client :=
  { c with funds := c.funds - amount, held_funds := c.held_funds + amount }

def Client.clear_held_funds (c : Client) (amount : ℚ) :
    Except TransactionError Client :=
  if c.held_funds < amount then Except.error TransactionError.NotEnoughFunds
  else Except.ok { c with held_funds := c.held_funds - amount }

def Client.release_funds (c : Client) (amount : ℚ) :
    Except TransactionError Client :=
  if c.held_funds < amount then Except.error TransactionError.NotEnoughFunds
  else Except.ok { c with held_funds := c.held_funds - amount,
                          funds := c.funds + amount }

/-- The client map (`ClientAccounts` in src/clients.rs). -/
def ClientAccounts := ClientId → Option Client

def ClientAccounts.get_account (m : ClientAccounts) (id : ClientId) :
    Option Client :=
  m id

/-- `ClientAccounts::create_client`: inserts `Client { funds, held_funds: 0., locked: false }`. -/
def ClientAccounts.create_client (m : ClientAccounts) (id : ClientId)
    (funds : ℚ) : ClientAccounts :=
  fun c => if c = id then some { funds := funds, held_funds := 0, locked := false } else m c

/-- Write-back of a mutated account: the translation of mutating a `Client`
through the `&mut` reference obtained from `get_account`. -/
def ClientAccounts.update_account (m : ClientAccounts) (id : ClientId)
    (client : Client) : ClientAccounts :=
  fun c => if c = id then some client else m c

/-- Kind and amount of a money operation (`OperationKind` in src/transactions.rs). -/
inductive OperationKind where
  | Deposit (amount : ℚ)
  | Withdrawal (amount : ℚ)
deriving DecidableEq

def OperationKind.amount : OperationKind → ℚ
  | OperationKind.Deposit a => a
  | OperationKind.Withdrawal a => a

/-- A recorded deposit or withdrawal (`MoneyOperation` in src/transactions.rs). -/
structure MoneyOperation where
  client_id : ClientId
  transaction_id : TransactionId
  disputed : Bool
  operation_kind : OperationKind
deriving DecidableEq

/-- The operation registry (`MoneyOperationsRegister` in src/transactions.rs). -/
def MoneyOperationsRegister := TransactionId → Option MoneyOperation

def MoneyOperationsRegister.contains (r : MoneyOperationsRegister)
    (id : TransactionId) : Bool :=
  (r id).isSome

def MoneyOperationsRegister.get_operation (r : MoneyOperationsRegister)
    (id : TransactionId) : Option MoneyOperation :=
  r id

def MoneyOperationsRegister.insert (r : MoneyOperationsRegister)
    (id : TransactionId) (operation : MoneyOperation) :
    MoneyOperationsRegister :=
  fun t => if t = id then some operation else r t

/-- The combined mutable state the processor borrows: the Ledger and the
Registry. -/
structure EngineState where
  accounts : ClientAccounts
  register : MoneyOperationsRegister

/-- `MoneyOperation::process` from src/transactions.rs, statement by
statement; every `return Err(..)` returns the state as mutated so far. -/
def MoneyOperation.process (op : MoneyOperation) (s : EngineState) :
    Option TransactionError × EngineState :=
  if s.register.contains op.transaction_id then
    (some (TransactionError.AlreadyExists op.transaction_id), s)
  else
    match op.operation_kind, s.accounts.get_account op.client_id with
    | kind, some client =>
        if client.locked then
          (some (TransactionError.LockedAccount op.client_id), s)
        else
          match kind with
          | OperationKind.Withdrawal amount =>
              if ¬ client.has_enough_funds amount then
                (some TransactionError.NotEnoughFunds, s)
              else
                (none,
                 { accounts := s.accounts.update_account op.client_id
                     (client.decrease_funds amount),
                   register := s.register.insert op.transaction_id op })
          | OperationKind.Deposit amount =>
              (none,
               { accounts := s.accounts.update_account op.client_id
                   (client.increase_funds amount),
                 register := s.register.insert op.transaction_id op })
    | OperationKind.Withdrawal _, none =>
        (some (TransactionError.MissingClient op.client_id), s)
    | OperationKind.Deposit amount, none =>
        (none,
         { accounts := s.accounts.create_client op.client_id amount,
           register := s.register.insert op.transaction_id op })

/-- `ClientClaimKind` in src/transactions.rs. -/
inductive ClientClaimKind where
  | Resolve
  | Dispute
  | Chargeback
deriving DecidableEq

/-- `ClientClaim` in src/transactions.rs. -/
structure ClientClaim where
  client_id : ClientId
  transaction_id : TransactionId
  claim_kind : ClientClaimKind
deriving DecidableEq

/-- `ClientClaim::process` from src/transactions.rs.  The initial `match` on
`(get_operation(tx), get_account(client))` has, in source order: the guard arm
`(_, Some(client)) if client.locked`, then `(Some(op), Some(client))`, then
`(None, _)`, then `(_, None)`. -/
def ClientClaim.process (cl : ClientClaim) (s : EngineState) :
    Option TransactionError × EngineState :=
  match s.register.get_operation cl.transaction_id,
        s.accounts.get_account cl.client_id with
  | opOpt, some client =>
      if client.locked then
        (some (TransactionError.LockedAccount cl.client_id), s)
      else
        match opOpt with
        | none => (some (TransactionError.MissingOperation cl.transaction_id), s)
        | some operation =>
            match cl.claim_kind, operation.disputed with
            | ClientClaimKind.Dispute, false =>
                -- Negative funds are accepted when due to disputes (source comment)
                let client' :=
                  match operation.operation_kind with
                  | OperationKind.Deposit amount =>
                      (client.hold_funds amount).decrease_funds amount
                  | OperationKind.Withdrawal amount => client.hold_funds amount
                (none,
                 { accounts := s.accounts.update_account cl.client_id client',
                   register := s.register.insert cl.transaction_id
                     { operation with disputed := true } })
            | ClientClaimKind.Resolve, true =>
                match
                  (match operation.operation_kind with
                   | OperationKind.Deposit amount => client.release_funds amount
                   | OperationKind.Withdrawal amount =>
                       client.clear_held_funds amount) with
                | Except.error e => (some e, s)
                | Except.ok client' =>
                    (none,
                     { accounts := s.accounts.update_account cl.client_id client',
                       register := s.register.insert cl.transaction_id
                         { operation with disputed := false } })
            | ClientClaimKind.Chargeback, false =>
                match
                  (match operation.operation_kind with
                   | OperationKind.Deposit amount =>
                       client.clear_held_funds amount
                   | OperationKind.Withdrawal amount =>
                       client.release_funds amount) with
                | Except.error e => (some e, s)
                | Except.ok client' =>
                    (none,
                     { accounts := s.accounts.update_account cl.client_id
                         { client' with locked := true },
                       register := s.register.insert cl.transaction_id
                         { operation with disputed := false } })
            | _, _ => (some TransactionError.WrongTransactionState, s)
  | none, none => (some (TransactionError.MissingOperation cl.transaction_id), s)
  | some _, none => (some (TransactionError.MissingClient cl.client_id), s)

/-- `TransactionOrder` in src/transactions.rs. -/
inductive TransactionOrder where
  | MoneyOperation (op : MoneyOperation)
  | ClientClaim (cl : ClientClaim)
deriving DecidableEq

/-- `TransactionOrder::process`. -/
def TransactionOrder.process (r : TransactionOrder) (s : EngineState) :
    Option TransactionError × EngineState :=
  match r with
  | TransactionOrder.MoneyOperation op => op.process s
  | TransactionOrder.ClientClaim cl => cl.process s

/-- The record-processing loop of `read_transactions_file` in src/lib.rs:
records are processed in order, and on error processing continues with the
next record against the state the failing call returned. -/
def processAll (rs : List TransactionOrder) (s : EngineState) : EngineState :=
  match rs with
  | [] => s
  | r :: rest => processAll rest (r.process s).2

/-- The state at program start: both maps empty (`ClientAccounts::new`,
`MoneyOperationsRegister::new`). -/
def initialState : EngineState :=
  { accounts := fun _ => none, register := fun _ => none }

/-- `TransactionKind` from src/lib.rs. -/
inductive TransactionKind where
  | Deposit
  | Withdrawal
  | Resolve
  | Dispute
  | Chargeback
deriving DecidableEq

/-- One deserialized CSV row (`TransactionLine` in src/lib.rs). -/
structure TransactionLine where
  transaction_type : TransactionKind
  client_id : ClientId
  transaction_id : TransactionId
  amount : Option ℚ

/-- `TryFrom<TransactionLine> for TransactionOrder` from src/lib.rs; the
`Err(Error::WrongArgument)` outcome (missing or negative amount on a money
operation) is modelled as `none`. -/
def TransactionOrder.try_from (line : TransactionLine) :
    Option TransactionOrder :=
  match line.transaction_type with
  | TransactionKind.Deposit =>
      match line.amount with
      | some amount =>
          if amount ≥ 0 then
            some (TransactionOrder.MoneyOperation
              { client_id := line.client_id,
                transaction_id := line.transaction_id,
                disputed := false,
                operation_kind := OperationKind.Deposit amount })
          else none
      | none => none
  | TransactionKind.Withdrawal =>
      match line.amount with
      | some amount =>
          if amount ≥ 0 then
            some (TransactionOrder.MoneyOperation
              { client_id := line.client_id,
                transaction_id := line.transaction_id,
                disputed := false,
                operation_kind := OperationKind.Withdrawal amount })
          else none
      | none => none
  | TransactionKind.Resolve =>
      some (TransactionOrder.ClientClaim
        { client_id := line.client_id,
          transaction_id := line.transaction_id,
          claim_kind := ClientClaimKind.Resolve })
  | TransactionKind.Dispute =>
      some (TransactionOrder.ClientClaim
        { client_id := line.client_id,
          transaction_id := line.transaction_id,
          claim_kind := ClientClaimKind.Dispute })
  | TransactionKind.Chargeback =>
      some (TransactionOrder.ClientClaim
        { client_id := line.client_id,
          transaction_id := line.transaction_id,
          claim_kind := ClientClaimKind.Chargeback })

/-! ### Derived observations used to state the claims -/

/-- Available balance reported for a client (0 for a nonexistent account). -/
def availOf (s : EngineState) (c : ClientId) : ℚ :=
  match s.accounts c with
  | some client => client.funds
  | none => 0

/-- Whether the client's account exists and is locked. -/
def lockedIn (s : EngineState) (c : ClientId) : Bool :=
  match s.accounts c with
  | some client => client.locked
  | none => false

/-- The three (claim kind, dispute flag) combinations the state machine
accepts: Dispute when undisputed, Resolve when disputed, Chargeback when
undisputed. -/
def validCombo : ClientClaimKind → Bool → Bool
  | ClientClaimKind.Dispute, false => true
  | ClientClaimKind.Resolve, true => true
  | ClientClaimKind.Chargeback, false => true
  | _, _ => false

def isMoneyOp : TransactionOrder → Bool
  | TransactionOrder.MoneyOperation _ => true
  | TransactionOrder.ClientClaim _ => false

/-- Sum of the amounts of client `c`'s deposits that are accepted while
replaying the record list from state `s`. -/
def acceptedDepositSum (c : ClientId) :
    List TransactionOrder → EngineState → ℚ
  | [], _ => 0
  | r :: rs, s =>
      (match r with
       | TransactionOrder.MoneyOperation op =>
           if op.client_id = c ∧ (op.process s).1 = none then
             match op.operation_kind with
             | OperationKind.Deposit a => a
             | OperationKind.Withdrawal _ => 0
           else 0
       | TransactionOrder.ClientClaim _ => 0)
      + acceptedDepositSum c rs (r.process s).2

/-- Sum of the amounts of client `c`'s withdrawals that are accepted while
replaying the record list from state `s`. -/
def acceptedWithdrawalSum (c : ClientId) :
    List TransactionOrder → EngineState → ℚ
  | [], _ => 0
  | r :: rs, s =>
      (match r with
       | TransactionOrder.MoneyOperation op =>
           if op.client_id = c ∧ (op.process s).1 = none then
             match op.operation_kind with
             | OperationKind.Deposit _ => 0
             | OperationKind.Withdrawal a => a
           else 0
       | TransactionOrder.ClientClaim _ => 0)
      + acceptedWithdrawalSum c rs (r.process s).2

/-- Every existing account has nonnegative held funds. -/
def heldNonneg (s : EngineState) : Prop :=
  ∀ c client, s.accounts c = some client → 0 ≤ client.held_funds

/-- Every registered operation carries a nonnegative amount. -/
def registerNonneg (s : EngineState) : Prop :=
  ∀ t op, s.register t = some op → 0 ≤ op.operation_kind.amount

/-- The record's amount passed the boundary check `amount >= 0` of
`TryFrom<TransactionLine>` (claims carry no amount). -/
def TransactionOrder.nonnegAmount : TransactionOrder → Prop
  | TransactionOrder.MoneyOperation op => 0 ≤ op.operation_kind.amount
  | TransactionOrder.ClientClaim _ => True

/-! ### Helper lemmas -/

theorem moneyOp_err_state (op : MoneyOperation) (s : EngineState)
    (e : TransactionError) (s' : EngineState)
    (hp : op.process s = (some e, s')) : s' = s := by
  unfold MoneyOperation.process at hp
  repeat' split at hp
  all_goals simp_all

theorem claim_err_state (cl : ClientClaim) (s : EngineState)
    (e : TransactionError) (s' : EngineState)
    (hp : cl.process s = (some e, s')) : s' = s := by
  unfold ClientClaim.process at hp
  repeat' split at hp
  all_goals simp_all

theorem order_err_state (r : TransactionOrder) (s : EngineState)
    (e : TransactionError) (s' : EngineState)
    (hp : r.process s = (some e, s')) : s' = s := by
  cases r with
  | MoneyOperation op => exact moneyOp_err_state op s e s' hp
  | ClientClaim cl => exact claim_err_state cl s e s' hp

theorem moneyOp_accounts_other (op : MoneyOperation) (s : EngineState)
    (c : ClientId) (hc : c ≠ op.client_id) :
    ((op.process s).2).accounts c = s.accounts c := by
  unfold MoneyOperation.process
  repeat' split
  all_goals
    simp_all [ClientAccounts.update_account, ClientAccounts.create_client]

theorem claim_accounts_other (cl : ClientClaim) (s : EngineState)
    (c : ClientId) (hc : c ≠ cl.client_id) :
    ((cl.process s).2).accounts c = s.accounts c := by
  unfold ClientClaim.process
  repeat' split
  all_goals
    simp_all [ClientAccounts.update_account]

theorem moneyOp_dup (op : MoneyOperation) (s : EngineState)
    (h : s.register.contains op.transaction_id = true) :
    op.process s = (some (TransactionError.AlreadyExists op.transaction_id), s) := by
  unfold MoneyOperation.process
  simp [h]

theorem moneyOp_locked (op : MoneyOperation) (s : EngineState) (client : Client)
    (hacc : s.accounts.get_account op.client_id = some client)
    (hlk : client.locked = true)
    (hfresh : s.register.contains op.transaction_id = false) :
    op.process s = (some (TransactionError.LockedAccount op.client_id), s) := by
  rcases hk : op.operation_kind with a | a <;>
  · unfold MoneyOperation.process
    simp [hfresh, hacc, hk, hlk]

theorem moneyOp_state_of_locked (op : MoneyOperation) (s : EngineState)
    (client : Client)
    (hacc : s.accounts.get_account op.client_id = some client)
    (hlk : client.locked = true) :
    ((op.process s).2) = s := by
  rcases hfresh : s.register.contains op.transaction_id with _ | _
  · rw [moneyOp_locked op s client hacc hlk hfresh]
  · rw [moneyOp_dup op s hfresh]

theorem claim_locked (cl : ClientClaim) (s : EngineState) (client : Client)
    (hacc : s.accounts.get_account cl.client_id = some client)
    (hlk : client.locked = true) :
    cl.process s = (some (TransactionError.LockedAccount cl.client_id), s) := by
  unfold ClientClaim.process
  rcases hr : s.register.get_operation cl.transaction_id with _ | op <;>
    simp [hr, hacc, hlk]

theorem lockedIn_iff (s : EngineState) (c : ClientId) :
    lockedIn s c = true ↔
      ∃ client, s.accounts c = some client ∧ client.locked = true := by
  unfold lockedIn
  rcases h : s.accounts c with _ | client <;> simp

theorem moneyOp_register_mono (op : MoneyOperation) (s : EngineState)
    (t : TransactionId) (h : s.register.contains t = true) :
    ((op.process s).2).register.contains t = true := by
  unfold MoneyOperation.process
  repeat' split
  all_goals
    simp_all [MoneyOperationsRegister.contains, MoneyOperationsRegister.insert]
  all_goals
    repeat' split
  all_goals simp_all

theorem claim_register_mono (cl : ClientClaim) (s : EngineState)
    (t : TransactionId) (h : s.register.contains t = true) :
    ((cl.process s).2).register.contains t = true := by
  unfold ClientClaim.process
  repeat' split
  all_goals
    simp_all [MoneyOperationsRegister.contains, MoneyOperationsRegister.insert]
  all_goals
    repeat' split
  all_goals simp_all

theorem order_register_mono (r : TransactionOrder) (s : EngineState)
    (t : TransactionId) (h : s.register.contains t = true) :
    ((r.process s).2).register.contains t = true := by
  cases r with
  | MoneyOperation op => exact moneyOp_register_mono op s t h
  | ClientClaim cl => exact claim_register_mono cl s t h

theorem processAll_register_mono (rs : List TransactionOrder) (s : EngineState)
    (t : TransactionId) (h : s.register.contains t = true) :
    (processAll rs s).register.contains t = true := by
  induction rs generalizing s with
  | nil => exact h
  | cons r rest ih =>
      exact ih (r.process s).2 (order_register_mono r s t h)

theorem locked_mono (r : TransactionOrder) (s : EngineState) (c : ClientId)
    (h : lockedIn s c = true) : lockedIn (r.process s).2 c = true := by
  obtain ⟨client, hacc, hlk⟩ := (lockedIn_iff s c).mp h
  cases r with
  | MoneyOperation op =>
      simp only [TransactionOrder.process]
      by_cases hc : c = op.client_id
      · subst hc
        rw [moneyOp_state_of_locked op s client hacc hlk]
        exact h
      · rw [(lockedIn_iff _ c).mpr ⟨client, ?_, hlk⟩]
        rw [moneyOp_accounts_other op s c hc]
        exact hacc
  | ClientClaim cl =>
      simp only [TransactionOrder.process]
      by_cases hc : c = cl.client_id
      · subst hc
        rw [claim_locked cl s client hacc hlk]
        exact h
      · rw [(lockedIn_iff _ c).mpr ⟨client, ?_, hlk⟩]
        rw [claim_accounts_other cl s c hc]
        exact hacc

theorem processAll_locked_mono (rs : List TransactionOrder) (s : EngineState)
    (c : ClientId) (h : lockedIn s c = true) :
    lockedIn (processAll rs s) c = true := by
  induction rs generalizing s with
  | nil => exact h
  | cons r rest ih => exact ih (r.process s).2 (locked_mono r s c h)

theorem claim_dispute_found (cl : ClientClaim) (s : EngineState)
    (op : MoneyOperation) (client : Client)
    (hk : cl.claim_kind = ClientClaimKind.Dispute)
    (hr : s.register.get_operation cl.transaction_id = some op)
    (hacc : s.accounts.get_account cl.client_id = some client)
    (hlk : client.locked = false)
    (hdisp : op.disputed = false) :
    cl.process s =
      (none,
       { accounts := s.accounts.update_account cl.client_id
           (match op.operation_kind with
            | OperationKind.Deposit a => (client.hold_funds a).decrease_funds a
            | OperationKind.Withdrawal a => client.hold_funds a),
         register := s.register.insert cl.transaction_id
           { op with disputed := true } }) := by
  unfold ClientClaim.process
  simp [hr, hacc, hlk, hk, hdisp]

theorem claim_missing_client (cl : ClientClaim) (s : EngineState)
    (op : MoneyOperation)
    (hr : s.register.get_operation cl.transaction_id = some op)
    (hacc : s.accounts.get_account cl.client_id = none) :
    cl.process s = (some (TransactionError.MissingClient cl.client_id), s) := by
  unfold ClientClaim.process
  simp [hr, hacc]

theorem claim_missing_operation (cl : ClientClaim) (s : EngineState)
    (hr : s.register.get_operation cl.transaction_id = none)
    (hacc : s.accounts.get_account cl.client_id = none ∨
      ∃ client, s.accounts.get_account cl.client_id = some client ∧
        client.locked = false) :
    cl.process s =
      (some (TransactionError.MissingOperation cl.transaction_id), s) := by
  unfold ClientClaim.process
  rcases hacc with h | ⟨client, h, hlk⟩
  · simp [hr, h]
  · simp [hr, h, hlk]

theorem claim_err_of_missing_op (cl : ClientClaim) (s : EngineState)
    (hr : s.register.get_operation cl.transaction_id = none) :
    ∃ e, (cl.process s).1 = some e := by
  rcases hacc : s.accounts.get_account cl.client_id with _ | client
  · exact ⟨_, by rw [claim_missing_operation cl s hr (Or.inl hacc)]⟩
  · rcases hlk : client.locked with _ | _
    · exact ⟨_, by rw [claim_missing_operation cl s hr (Or.inr ⟨client, hacc, hlk⟩)]⟩
    · exact ⟨_, by rw [claim_locked cl s client hacc hlk]⟩

theorem claim_wrong_state (cl : ClientClaim) (s : EngineState)
    (op : MoneyOperation) (client : Client)
    (hr : s.register.get_operation cl.transaction_id = some op)
    (hacc : s.accounts.get_account cl.client_id = some client)
    (hlk : client.locked = false)
    (hcombo : validCombo cl.claim_kind op.disputed = false) :
    cl.process s = (some TransactionError.WrongTransactionState, s) := by
  unfold ClientClaim.process
  rcases hck : cl.claim_kind <;> rcases hd2 : op.disputed <;>
    simp_all [validCombo]

theorem chargeback_locks (cl : ClientClaim) (s : EngineState) (s' : EngineState)
    (hk : cl.claim_kind = ClientClaimKind.Chargeback)
    (hp : cl.process s = (none, s')) :
    lockedIn s' cl.client_id = true := by
  unfold ClientClaim.process at hp
  repeat' split at hp
  all_goals try simp_all [lockedIn, ClientAccounts.update_account]
  all_goals subst hp
  all_goals simp [lockedIn, ClientAccounts.update_account]

theorem chargeback_success_undisputed (cl : ClientClaim) (s : EngineState)
    (s' : EngineState)
    (hk : cl.claim_kind = ClientClaimKind.Chargeback)
    (hp : cl.process s = (none, s')) :
    ∃ op, s.register.get_operation cl.transaction_id = some op ∧
      op.disputed = false := by
  rcases hr : s.register.get_operation cl.transaction_id with _ | op
  · obtain ⟨e, he⟩ := claim_err_of_missing_op cl s hr
    rw [hp] at he
    simp at he
  · refine ⟨op, rfl, ?_⟩
    rcases hacc : s.accounts.get_account cl.client_id with _ | client
    · have hmc := claim_missing_client cl s op hr hacc
      rw [hmc] at hp
      simp at hp
    · rcases hlk : client.locked with _ | _
      · rcases hd : op.disputed with _ | _
        · rfl
        · have hws := claim_wrong_state cl s op client hr hacc hlk
            (by rw [hk, hd]; rfl)
          rw [hws] at hp
          simp at hp
      · have hl := claim_locked cl s client hacc hlk
        rw [hl] at hp
        simp at hp

theorem moneyOp_avail_step (op : MoneyOperation) (s : EngineState)
    (c : ClientId) :
    availOf ((op.process s).2) c
      = availOf s c
        + (if op.client_id = c ∧ (op.process s).1 = none then
             match op.operation_kind with
             | OperationKind.Deposit a => a
             | OperationKind.Withdrawal _ => 0
           else 0)
        - (if op.client_id = c ∧ (op.process s).1 = none then
             match op.operation_kind with
             | OperationKind.Deposit _ => 0
             | OperationKind.Withdrawal a => a
           else 0) := by
  by_cases hc : op.client_id = c
  · subst hc
    rcases hp : op.process s with ⟨e, s2⟩
    rcases e with _ | e
    · unfold MoneyOperation.process at hp
      repeat' split at hp
      all_goals try rw [← hp]
      all_goals
        simp_all [availOf, ClientAccounts.get_account,
          ClientAccounts.update_account, ClientAccounts.create_client,
          Client.increase_funds, Client.decrease_funds]
    · rw [moneyOp_err_state op s e s2 hp]
      simp
  · have hacc := moneyOp_accounts_other op s c (fun h => hc h.symm)
    unfold availOf
    rw [hacc]
    simp [hc]

theorem availOf_processAll (rs : List TransactionOrder) (s : EngineState)
    (c : ClientId) (hmo : ∀ r ∈ rs, isMoneyOp r = true) :
    availOf (processAll rs s) c
      = availOf s c + acceptedDepositSum c rs s - acceptedWithdrawalSum c rs s := by
  induction rs generalizing s with
  | nil => simp [processAll, acceptedDepositSum, acceptedWithdrawalSum]
  | cons r rest ih =>
      rcases r with op | cl
      · simp only [processAll, acceptedDepositSum, acceptedWithdrawalSum,
          TransactionOrder.process]
        rw [ih _ (fun r hr => hmo r (List.mem_cons_of_mem _ hr)),
          moneyOp_avail_step op s c]
        ring
      · have := hmo (TransactionOrder.ClientClaim cl) (List.mem_cons_self _ _)
        simp [isMoneyOp] at this

theorem heldNonneg_update (s : EngineState) (id : ClientId) (client : Client)
    (h : heldNonneg s) (hcl : 0 ≤ client.held_funds)
    (reg : MoneyOperationsRegister) :
    heldNonneg { accounts := s.accounts.update_account id client,
                 register := reg } := by
  intro c' cl' hc'
  simp only [ClientAccounts.update_account] at hc'
  by_cases he : c' = id
  · simp [he] at hc'
    rw [← hc']
    exact hcl
  · exact h c' cl' (by simpa [he] using hc')

theorem heldNonneg_create (s : EngineState) (id : ClientId) (f : ℚ)
    (h : heldNonneg s) (reg : MoneyOperationsRegister) :
    heldNonneg { accounts := s.accounts.create_client id f,
                 register := reg } := by
  intro c' cl' hc'
  simp only [ClientAccounts.create_client] at hc'
  by_cases he : c' = id
  · simp [he] at hc'
    rw [← hc']
  · exact h c' cl' (by simpa [he] using hc')

theorem registerNonneg_insert (s : EngineState) (id : TransactionId)
    (op : MoneyOperation) (h : registerNonneg s)
    (hop : 0 ≤ op.operation_kind.amount) (m : ClientAccounts) :
    registerNonneg { accounts := m,
                     register := s.register.insert id op } := by
  intro t op' ht
  simp only [MoneyOperationsRegister.insert] at ht
  by_cases he : t = id
  · simp [he] at ht
    rw [← ht]
    exact hop
  · exact h t op' (by simpa [he] using ht)

theorem claim_err_snd (cl : ClientClaim) (s : EngineState) (e : TransactionError)
    (h : (cl.process s).1 = some e) : (cl.process s).2 = s := by
  rcases hp : cl.process s with ⟨e', s2⟩
  rw [hp] at h
  simp at h
  subst h
  exact claim_err_state cl s e s2 hp

theorem release_funds_ok_held (client client' : Client) (a : ℚ)
    (h : client.release_funds a = Except.ok client') :
    0 ≤ client'.held_funds := by
  unfold Client.release_funds at h
  by_cases hlt : client.held_funds < a
  · simp [hlt] at h
  · simp [hlt] at h
    rw [← h]
    simp
    linarith [not_lt.mp hlt]

theorem clear_held_funds_ok_held (client client' : Client) (a : ℚ)
    (h : client.clear_held_funds a = Except.ok client') :
    0 ≤ client'.held_funds := by
  unfold Client.clear_held_funds at h
  by_cases hlt : client.held_funds < a
  · simp [hlt] at h
  · simp [hlt] at h
    rw [← h]
    simp
    linarith [not_lt.mp hlt]

theorem claim_resolve_found (cl : ClientClaim) (s : EngineState)
    (op : MoneyOperation) (client : Client)
    (hk : cl.claim_kind = ClientClaimKind.Resolve)
    (hr : s.register.get_operation cl.transaction_id = some op)
    (hacc : s.accounts.get_account cl.client_id = some client)
    (hlk : client.locked = false)
    (hdisp : op.disputed = true) :
    cl.process s =
      (match (match op.operation_kind with
              | OperationKind.Deposit a => client.release_funds a
              | OperationKind.Withdrawal a => client.clear_held_funds a) with
       | Except.error e => (some e, s)
       | Except.ok client' =>
           (none,
            { accounts := s.accounts.update_account cl.client_id client',
              register := s.register.insert cl.transaction_id
                { op with disputed := false } })) := by
  unfold ClientClaim.process
  simp [hr, hacc, hlk, hk, hdisp]

theorem claim_chargeback_found (cl : ClientClaim) (s : EngineState)
    (op : MoneyOperation) (client : Client)
    (hk : cl.claim_kind = ClientClaimKind.Chargeback)
    (hr : s.register.get_operation cl.transaction_id = some op)
    (hacc : s.accounts.get_account cl.client_id = some client)
    (hlk : client.locked = false)
    (hdisp : op.disputed = false) :
    cl.process s =
      (match (match op.operation_kind with
              | OperationKind.Deposit a => client.clear_held_funds a
              | OperationKind.Withdrawal a => client.release_funds a) with
       | Except.error e => (some e, s)
       | Except.ok client' =>
           (none,
            { accounts := s.accounts.update_account cl.client_id
                { client' with locked := true },
              register := s.register.insert cl.transaction_id
                { op with disputed := false } })) := by
  unfold ClientClaim.process
  simp [hr, hacc, hlk, hk, hdisp]

theorem moneyOp_nonneg_step (op : MoneyOperation) (s : EngineState)
    (hamt : 0 ≤ op.operation_kind.amount)
    (h1 : heldNonneg s) (h2 : registerNonneg s) :
    heldNonneg (op.process s).2 ∧ registerNonneg (op.process s).2 := by
  rcases hcont : s.register.contains op.transaction_id with _ | _
  · rcases hacc : s.accounts.get_account op.client_id with _ | client
    · rcases hk : op.operation_kind with a | a
      · have hps : op.process s =
            (none, { accounts := s.accounts.create_client op.client_id a,
                     register := s.register.insert op.transaction_id op }) := by
          unfold MoneyOperation.process
          simp [hcont, hacc, hk]
        rw [hps]
        exact ⟨heldNonneg_create s _ _ h1 _,
          registerNonneg_insert s _ _ h2 hamt _⟩
      · have hps : op.process s =
            (some (TransactionError.MissingClient op.client_id), s) := by
          unfold MoneyOperation.process
          simp [hcont, hacc, hk]
        rw [hps]
        exact ⟨h1, h2⟩
    · rcases hlk : client.locked with _ | _
      · rcases hk : op.operation_kind with a | a
        · have hps : op.process s =
              (none,
               { accounts := s.accounts.update_account op.client_id
                   (client.increase_funds a),
                 register := s.register.insert op.transaction_id op }) := by
            unfold MoneyOperation.process
            simp [hcont, hacc, hk, hlk]
          rw [hps]
          refine ⟨heldNonneg_update s _ _ h1 ?_ _,
            registerNonneg_insert s _ _ h2 hamt _⟩
          simpa [Client.increase_funds] using h1 _ _ hacc
        · rcases hen : client.has_enough_funds a with _ | _
          · have hps : op.process s = (some TransactionError.NotEnoughFunds, s) := by
              unfold MoneyOperation.process
              simp [hcont, hacc, hk, hlk, hen]
            rw [hps]
            exact ⟨h1, h2⟩
          · have hps : op.process s =
                (none,
                 { accounts := s.accounts.update_account op.client_id
                     (client.decrease_funds a),
                   register := s.register.insert op.transaction_id op }) := by
              unfold MoneyOperation.process
              simp [hcont, hacc, hk, hlk, hen]
            rw [hps]
            refine ⟨heldNonneg_update s _ _ h1 ?_ _,
              registerNonneg_insert s _ _ h2 hamt _⟩
            simpa [Client.decrease_funds] using h1 _ _ hacc
      · rw [moneyOp_locked op s client hacc hlk hcont]
        exact ⟨h1, h2⟩
  · rw [moneyOp_dup op s hcont]
    exact ⟨h1, h2⟩

theorem claim_nonneg_step (cl : ClientClaim) (s : EngineState)
    (h1 : heldNonneg s) (h2 : registerNonneg s) :
    heldNonneg (cl.process s).2 ∧ registerNonneg (cl.process s).2 := by
  rcases hr : s.register.get_operation cl.transaction_id with _ | op
  · obtain ⟨e, he⟩ := claim_err_of_missing_op cl s hr
    rw [claim_err_snd cl s e he]
    exact ⟨h1, h2⟩
  · rcases hacc : s.accounts.get_account cl.client_id with _ | client
    · rw [claim_missing_client cl s op hr hacc]
      exact ⟨h1, h2⟩
    · rcases hlk : client.locked with _ | _
      · have hamt : 0 ≤ op.operation_kind.amount := h2 _ _ hr
        rcases hck : cl.claim_kind with _ | _ | _
        · rcases hd : op.disputed with _ | _
          · rw [claim_wrong_state cl s op client hr hacc hlk
              (by rw [hck, hd]; rfl)]
            exact ⟨h1, h2⟩
          · rw [claim_resolve_found cl s op client hck hr hacc hlk hd]
            rcases hk : op.operation_kind with a | a
            · rcases hres : client.release_funds a with e | client'
              · simp only [hk, hres]
                exact ⟨h1, h2⟩
              · simp only [hk, hres]
                exact ⟨heldNonneg_update s _ _ h1
                    (release_funds_ok_held client client' a hres) _,
                  registerNonneg_insert s _ _ h2 (by simpa [hk] using hamt) _⟩
            · rcases hres : client.clear_held_funds a with e | client'
              · simp only [hk, hres]
                exact ⟨h1, h2⟩
              · simp only [hk, hres]
                exact ⟨heldNonneg_update s _ _ h1
                    (clear_held_funds_ok_held client client' a hres) _,
                  registerNonneg_insert s _ _ h2 (by simpa [hk] using hamt) _⟩
        · rcases hd : op.disputed with _ | _
          · rw [claim_dispute_found cl s op client hck hr hacc hlk hd]
            have hheld : 0 ≤ client.held_funds := h1 _ _ hacc
            rcases hk : op.operation_kind with a | a
            · simp only [hk]
              refine ⟨heldNonneg_update s _ _ h1 ?_ _,
                registerNonneg_insert s _ _ h2 (by simpa [hk] using hamt) _⟩
              rw [hk] at hamt
              simp only [Client.hold_funds, Client.decrease_funds,
                OperationKind.amount] at hamt ⊢
              linarith
            · simp only [hk]
              refine ⟨heldNonneg_update s _ _ h1 ?_ _,
                registerNonneg_insert s _ _ h2 (by simpa [hk] using hamt) _⟩
              rw [hk] at hamt
              simp only [Client.hold_funds, OperationKind.amount] at hamt ⊢
              linarith
          · rw [claim_wrong_state cl s op client hr hacc hlk
              (by rw [hck, hd]; rfl)]
            exact ⟨h1, h2⟩
        · rcases hd : op.disputed with _ | _
          · rw [claim_chargeback_found cl s op client hck hr hacc hlk hd]
            rcases hk : op.operation_kind with a | a
            · rcases hres : client.clear_held_funds a with e | client'
              · simp only [hk, hres]
                exact ⟨h1, h2⟩
              · simp only [hk, hres]
                refine ⟨heldNonneg_update s _ _ h1 ?_ _,
                  registerNonneg_insert s _ _ h2 (by simpa [hk] using hamt) _⟩
                simpa using clear_held_funds_ok_held client client' a hres
            · rcases hres : client.release_funds a with e | client'
              · simp only [hk, hres]
                exact ⟨h1, h2⟩
              · simp only [hk, hres]
                refine ⟨heldNonneg_update s _ _ h1 ?_ _,
                  registerNonneg_insert s _ _ h2 (by simpa [hk] using hamt) _⟩
                simpa using release_funds_ok_held client client' a hres
          · rw [claim_wrong_state cl s op client hr hacc hlk
              (by rw [hck, hd]; rfl)]
            exact ⟨h1, h2⟩
      · rw [claim_locked cl s client hacc hlk]
        exact ⟨h1, h2⟩

theorem processAll_nonneg (rs : List TransactionOrder) (s : EngineState)
    (hrs : ∀ r ∈ rs, r.nonnegAmount)
    (h1 : heldNonneg s) (h2 : registerNonneg s) :
    heldNonneg (processAll rs s) ∧ registerNonneg (processAll rs s) := by
  induction rs generalizing s with
  | nil => exact ⟨h1, h2⟩
  | cons r rest ih =>
      have hstep : heldNonneg (r.process s).2 ∧ registerNonneg (r.process s).2 := by
        rcases r with op | cl
        · exact moneyOp_nonneg_step op s
            (hrs _ (List.mem_cons_self _ _)) h1 h2
        · exact claim_nonneg_step cl s h1 h2
      exact ih _ (fun r hr => hrs r (List.mem_cons_of_mem _ hr)) hstep.1 hstep.2

theorem try_from_nonneg (line : TransactionLine) (r : TransactionOrder)
    (h : TransactionOrder.try_from line = some r) : r.nonnegAmount := by
  unfold TransactionOrder.try_from at h
  repeat' split at h
  all_goals try simp only [Option.some.injEq] at h
  all_goals try subst h
  all_goals simp_all [TransactionOrder.nonnegAmount, OperationKind.amount]

theorem initialState_heldNonneg : heldNonneg initialState := by
  intro c client h
  simp [initialState] at h

theorem initialState_registerNonneg : registerNonneg initialState := by
  intro t op h
  simp [initialState] at h

/-! ### Concrete fixtures for counterexamples and witnesses -/

def clientA : Client := { funds := 10, held_funds := 0, locked := false }

def clientB : Client := { funds := 4, held_funds := 0, locked := false }

def lockedClient : Client := { funds := 0, held_funds := 0, locked := true }

def depositOp1 : MoneyOperation :=
  { client_id := 1, transaction_id := 1, disputed := false,
    operation_kind := OperationKind.Deposit 5 }

def withdrawalOp2 : MoneyOperation :=
  { client_id := 1, transaction_id := 2, disputed := false,
    operation_kind := OperationKind.Withdrawal 3 }

def disputedOp1 : MoneyOperation :=
  { client_id := 1, transaction_id := 1, disputed := true,
    operation_kind := OperationKind.Deposit 5 }

/-- Client 1 holds 10 available, 0 held; the registry holds an undisputed
deposit of 5 (tx 1) and an undisputed withdrawal of 3 (tx 2), both by
client 1. -/
def fixtureState : EngineState :=
  { accounts := fun c => if c = 1 then some clientA else none,
    register := fun t =>
      if t = 1 then some depositOp1
      else if t = 2 then some withdrawalOp2 else none }

/-- Client 1 exists and is locked; the registry is empty. -/
def lockedState : EngineState :=
  { accounts := fun c => if c = 1 then some lockedClient else none,
    register := fun _ => none }

/-- The registered deposit (tx 1) belongs to client 1, but client 2 also has
an account. -/
def mismatchState : EngineState :=
  { accounts := fun c =>
      if c = 1 then some clientA else if c = 2 then some clientB else none,
    register := fun t => if t = 1 then some depositOp1 else none }

/-- Client 1 exists with 10 available; the registry holds the deposit of 5
(tx 1) already marked disputed. -/
def disputedState : EngineState :=
  { accounts := fun c => if c = 1 then some clientA else none,
    register := fun t => if t = 1 then some disputedOp1 else none }

/-! ### The claims -/

/-- C1 counterexample: on `fixtureState`, disputing the deposit of 5 succeeds
but leaves client 1 with available = 0 (a decrease of 2·amount), not the
claimed available = 5 (a decrease of amount); disputing the withdrawal of 3
succeeds but decreases available from 10 to 7, while the claim says available
is unchanged. -/
theorem spec_C1_counterexample :
    ((ClientClaim.mk 1 1 ClientClaimKind.Dispute).process fixtureState).1 = none
    ∧ (((ClientClaim.mk 1 1 ClientClaimKind.Dispute).process fixtureState).2).accounts 1
        = some { funds := 0, held_funds := 5, locked := false }
    ∧ (((ClientClaim.mk 1 1 ClientClaimKind.Dispute).process fixtureState).2).accounts 1
        ≠ some { funds := 5, held_funds := 5, locked := false }
    ∧ ((ClientClaim.mk 1 2 ClientClaimKind.Dispute).process fixtureState).1 = none
    ∧ (((ClientClaim.mk 1 2 ClientClaimKind.Dispute).process fixtureState).2).accounts 1
        = some { funds := 7, held_funds := 3, locked := false }
    ∧ (((ClientClaim.mk 1 2 ClientClaimKind.Dispute).process fixtureState).2).accounts 1
        ≠ some { funds := 10, held_funds := 3, locked := false } := by
  refine ⟨?_, ?_, ?_, ?_, ?_, ?_⟩ <;>
    norm_num [ClientClaim.process, fixtureState, clientA, depositOp1,
      withdrawalOp2, MoneyOperationsRegister.get_operation,
      ClientAccounts.get_account, Client.hold_funds, Client.decrease_funds,
      ClientAccounts.update_account, MoneyOperationsRegister.insert]

/-- C1 (amended): for an unlocked account and a registered undisputed
operation, a Dispute succeeds; for a Deposit(amount) it decreases available
by 2·amount and increases held by amount, for a Withdrawal(amount) it
decreases available by amount and increases held by amount; the operation is
re-recorded with `disputed = true`, and no other account or registry entry
changes. -/
theorem spec_C1_dispute_effect (c : ClientId) (tx : TransactionId)
    (s : EngineState) (client : Client) (op : MoneyOperation)
    (hacc : s.accounts.get_account c = some client)
    (hlk : client.locked = false)
    (hreg : s.register.get_operation tx = some op)
    (hdisp : op.disputed = false) :
    ((ClientClaim.mk c tx ClientClaimKind.Dispute).process s).1 = none
    ∧ (∀ a, op.operation_kind = OperationKind.Deposit a →
        (((ClientClaim.mk c tx ClientClaimKind.Dispute).process s).2).accounts c
          = some { funds := client.funds - 2 * a,
                   held_funds := client.held_funds + a, locked := false })
    ∧ (∀ a, op.operation_kind = OperationKind.Withdrawal a →
        (((ClientClaim.mk c tx ClientClaimKind.Dispute).process s).2).accounts c
          = some { funds := client.funds - a,
                   held_funds := client.held_funds + a, locked := false })
    ∧ (((ClientClaim.mk c tx ClientClaimKind.Dispute).process s).2).register tx
        = some { op with disputed := true }
    ∧ (∀ c', c' ≠ c →
        (((ClientClaim.mk c tx ClientClaimKind.Dispute).process s).2).accounts c'
          = s.accounts c')
    ∧ (∀ t, t ≠ tx →
        (((ClientClaim.mk c tx ClientClaimKind.Dispute).process s).2).register t
          = s.register t) := by
  have hred := claim_dispute_found (ClientClaim.mk c tx ClientClaimKind.Dispute)
    s op client rfl hreg hacc hlk hdisp
  refine ⟨by rw [hred], ?_, ?_, ?_, ?_, ?_⟩
  · intro a hk
    rw [hred]
    simp [ClientAccounts.update_account, hk, Client.hold_funds,
      Client.decrease_funds, hlk]
    ring
  · intro a hk
    rw [hred]
    simp [ClientAccounts.update_account, hk, Client.hold_funds, hlk]
  · rw [hred]
    simp [MoneyOperationsRegister.insert]
  · intro c' hc'
    rw [hred]
    simp [ClientAccounts.update_account, hc']
  · intro t ht
    rw [hred]
    simp [MoneyOperationsRegister.insert, ht]

/-- C1 witness: the amended dispute effect evaluated on `fixtureState`. -/
theorem spec_C1_dispute_effect_witness :
    (fixtureState.accounts.get_account 1 = some clientA
      ∧ clientA.locked = false
      ∧ fixtureState.register.get_operation 1 = some depositOp1
      ∧ depositOp1.disputed = false)
    ∧ ((ClientClaim.mk 1 1 ClientClaimKind.Dispute).process fixtureState).1 = none := by
  refine ⟨⟨rfl, rfl, rfl, rfl⟩, ?_⟩
  exact (spec_C1_dispute_effect 1 1 fixtureState clientA depositOp1
    rfl rfl rfl rfl).1

/-- C2 counterexample: on `fixtureState`, Dispute then Resolve of the deposit
of 5 both succeed but leave client 1 with available = 5, not the pre-dispute
available = 10; Dispute then Resolve of the withdrawal of 3 leaves
available = 7, although the claim says available is unaltered. -/
theorem spec_C2_counterexample :
    ((ClientClaim.mk 1 1 ClientClaimKind.Dispute).process fixtureState).1 = none
    ∧ ((ClientClaim.mk 1 1 ClientClaimKind.Resolve).process
        ((ClientClaim.mk 1 1 ClientClaimKind.Dispute).process fixtureState).2).1 = none
    ∧ (((ClientClaim.mk 1 1 ClientClaimKind.Resolve).process
        ((ClientClaim.mk 1 1 ClientClaimKind.Dispute).process fixtureState).2).2).accounts 1
        = some { funds := 5, held_funds := 0, locked := false }
    ∧ (((ClientClaim.mk 1 1 ClientClaimKind.Resolve).process
        ((ClientClaim.mk 1 1 ClientClaimKind.Dispute).process fixtureState).2).2).accounts 1
        ≠ some clientA
    ∧ ((ClientClaim.mk 1 2 ClientClaimKind.Dispute).process fixtureState).1 = none
    ∧ ((ClientClaim.mk 1 2 ClientClaimKind.Resolve).process
        ((ClientClaim.mk 1 2 ClientClaimKind.Dispute).process fixtureState).2).1 = none
    ∧ (((ClientClaim.mk 1 2 ClientClaimKind.Resolve).process
        ((ClientClaim.mk 1 2 ClientClaimKind.Dispute).process fixtureState).2).2).accounts 1
        = some { funds := 7, held_funds := 0, locked := false }
    ∧ (((ClientClaim.mk 1 2 ClientClaimKind.Resolve).process
        ((ClientClaim.mk 1 2 ClientClaimKind.Dispute).process fixtureState).2).2).accounts 1
        ≠ some clientA := by
  refine ⟨?_, ?_, ?_, ?_, ?_, ?_, ?_, ?_⟩ <;>
    norm_num [ClientClaim.process, fixtureState, clientA, depositOp1,
      withdrawalOp2, MoneyOperationsRegister.get_operation,
      ClientAccounts.get_account, Client.hold_funds, Client.decrease_funds,
      Client.release_funds, Client.clear_held_funds,
      ClientAccounts.update_account, MoneyOperationsRegister.insert]

/-- C2 (amended): from an unlocked account with available `f` and
nonnegative held `h`, a successful Dispute followed by a Resolve of the same
registered operation restores held to exactly `h` but leaves available
decreased by the operation's amount — for deposits and withdrawals alike. -/
theorem spec_C2_dispute_resolve (c : ClientId) (tx : TransactionId)
    (s : EngineState) (f h : ℚ) (op : MoneyOperation)
    (hacc : s.accounts.get_account c
      = some { funds := f, held_funds := h, locked := false })
    (hh : 0 ≤ h)
    (hreg : s.register.get_operation tx = some op)
    (hdisp : op.disputed = false) :
    ((ClientClaim.mk c tx ClientClaimKind.Dispute).process s).1 = none
    ∧ ((ClientClaim.mk c tx ClientClaimKind.Resolve).process
        ((ClientClaim.mk c tx ClientClaimKind.Dispute).process s).2).1 = none
    ∧ (((ClientClaim.mk c tx ClientClaimKind.Resolve).process
        ((ClientClaim.mk c tx ClientClaimKind.Dispute).process s).2).2).accounts c
        = some { funds := f - op.operation_kind.amount, held_funds := h,
                 locked := false } := by
  have hred := claim_dispute_found (ClientClaim.mk c tx ClientClaimKind.Dispute)
    s op { funds := f, held_funds := h, locked := false } rfl hreg hacc rfl hdisp
  rcases hk : op.operation_kind with a | a
  · rw [hk] at hred
    have hnlt : ¬ (h + a < a) := by linarith
    refine ⟨by rw [hred], ?_, ?_⟩
    · rw [hred]
      unfold ClientClaim.process
      simp [MoneyOperationsRegister.get_operation,
        MoneyOperationsRegister.insert, ClientAccounts.get_account,
        ClientAccounts.update_account, Client.hold_funds,
        Client.decrease_funds, Client.release_funds, hnlt]
    · rw [hred]
      unfold ClientClaim.process
      simp [MoneyOperationsRegister.get_operation,
        MoneyOperationsRegister.insert, ClientAccounts.get_account,
        ClientAccounts.update_account, Client.hold_funds,
        Client.decrease_funds, Client.release_funds, hnlt,
        OperationKind.amount]
  · rw [hk] at hred
    have hnlt : ¬ (h + a < a) := by linarith
    refine ⟨by rw [hred], ?_, ?_⟩
    · rw [hred]
      unfold ClientClaim.process
      simp [MoneyOperationsRegister.get_operation,
        MoneyOperationsRegister.insert, ClientAccounts.get_account,
        ClientAccounts.update_account, Client.hold_funds,
        Client.clear_held_funds, hnlt]
    · rw [hred]
      unfold ClientClaim.process
      simp [MoneyOperationsRegister.get_operation,
        MoneyOperationsRegister.insert, ClientAccounts.get_account,
        ClientAccounts.update_account, Client.hold_funds,
        Client.clear_held_funds, hnlt, OperationKind.amount]

/-- C2 witness: the amended round-trip evaluated on `fixtureState`. -/
theorem spec_C2_dispute_resolve_witness :
    (fixtureState.accounts.get_account 1
        = some { funds := 10, held_funds := 0, locked := false }
      ∧ (0 : ℚ) ≤ 0
      ∧ fixtureState.register.get_operation 1 = some depositOp1
      ∧ depositOp1.disputed = false)
    ∧ ((ClientClaim.mk 1 1 ClientClaimKind.Dispute).process fixtureState).1 = none := by
  refine ⟨⟨rfl, le_refl 0, rfl, rfl⟩, ?_⟩
  exact (spec_C2_dispute_resolve 1 1 fixtureState 10 0 depositOp1
    rfl (le_refl 0) rfl rfl).1

/-- C3 counterexample: on `lockedState` (client 1 locked, registry empty), a
Dispute referencing the absent transaction 7 fails with `LockedAccount 1`,
not with `MissingOperation 7`: the locked-account check fires before the
operation lookup is examined. -/
theorem spec_C3_counterexample :
    lockedState.register.get_operation 7 = none
    ∧ ((ClientClaim.mk 1 7 ClientClaimKind.Dispute).process lockedState).1
        = some (TransactionError.LockedAccount 1)
    ∧ ((ClientClaim.mk 1 7 ClientClaimKind.Dispute).process lockedState).1
        ≠ some (TransactionError.MissingOperation 7) := by
  refine ⟨rfl, rfl, ?_⟩
  decide

/-- C3 (amended): a claim whose referenced transaction is absent fails with
`MissingOperation` when the claimed client's account is absent or unlocked;
but when the claimed client's account exists and is locked, the claim fails
with `LockedAccount` even if the operation is missing — the locked-account
check runs first whenever the account exists. -/
theorem spec_C3_missing_operation :
    (∀ (cl : ClientClaim) (s : EngineState),
       s.register.get_operation cl.transaction_id = none →
       (s.accounts.get_account cl.client_id = none ∨
         ∃ client, s.accounts.get_account cl.client_id = some client ∧
           client.locked = false) →
       cl.process s
         = (some (TransactionError.MissingOperation cl.transaction_id), s))
    ∧ (∀ (cl : ClientClaim) (s : EngineState) (client : Client),
       s.accounts.get_account cl.client_id = some client →
       client.locked = true →
       cl.process s
         = (some (TransactionError.LockedAccount cl.client_id), s)) :=
  ⟨claim_missing_operation, claim_locked⟩

/-- C3 witness: both parts of the amended claim evaluated on concrete
states. -/
theorem spec_C3_missing_operation_witness :
    (lockedState.register.get_operation 7 = none
      ∧ lockedState.accounts.get_account 2 = none
      ∧ (ClientClaim.mk 2 7 ClientClaimKind.Dispute).process lockedState
          = (some (TransactionError.MissingOperation 7), lockedState))
    ∧ (lockedState.accounts.get_account 1 = some lockedClient
      ∧ lockedClient.locked = true
      ∧ (ClientClaim.mk 1 7 ClientClaimKind.Dispute).process lockedState
          = (some (TransactionError.LockedAccount 1), lockedState)) :=
  ⟨⟨rfl, rfl,
      spec_C3_missing_operation.1 (ClientClaim.mk 2 7 ClientClaimKind.Dispute)
        lockedState rfl (Or.inl rfl)⟩,
    ⟨rfl, rfl,
      spec_C3_missing_operation.2 (ClientClaim.mk 1 7 ClientClaimKind.Dispute)
        lockedState lockedClient rfl rfl⟩⟩

/-- C4: whenever processing any record returns an error, the Ledger and the
Registry after processing are exactly the state from before the record: no
failure path performs any mutation first. -/
theorem spec_C4_no_partial_mutation (r : TransactionOrder) (s : EngineState)
    (e : TransactionError) (s' : EngineState)
    (hp : r.process s = (some e, s')) : s' = s :=
  order_err_state r s e s' hp

/-- C4 witness: a failing claim on `lockedState` leaves the state intact. -/
theorem spec_C4_no_partial_mutation_witness :
    (TransactionOrder.ClientClaim
        (ClientClaim.mk 1 7 ClientClaimKind.Dispute)).process lockedState
      = (some (TransactionError.LockedAccount 1), lockedState)
    ∧ lockedState = lockedState :=
  ⟨rfl,
    spec_C4_no_partial_mutation
      (TransactionOrder.ClientClaim (ClientClaim.mk 1 7 ClientClaimKind.Dispute))
      lockedState (TransactionError.LockedAccount 1) lockedState rfl⟩

/-- C5: a successful Chargeback locks the claimed client's account; a locked
account stays locked under every further record (and every further record
list); a money operation with a fresh transaction id against a locked client
fails with `LockedAccount`, and every claim naming a locked client fails with
`LockedAccount`. -/
theorem spec_C5_chargeback_terminality :
    (∀ (cl : ClientClaim) (s s' : EngineState),
       cl.claim_kind = ClientClaimKind.Chargeback →
       cl.process s = (none, s') → lockedIn s' cl.client_id = true)
    ∧ (∀ (r : TransactionOrder) (s : EngineState) (c : ClientId),
       lockedIn s c = true → lockedIn (r.process s).2 c = true)
    ∧ (∀ (rs : List TransactionOrder) (s : EngineState) (c : ClientId),
       lockedIn s c = true → lockedIn (processAll rs s) c = true)
    ∧ (∀ (op : MoneyOperation) (s : EngineState),
       lockedIn s op.client_id = true →
       s.register.contains op.transaction_id = false →
       op.process s = (some (TransactionError.LockedAccount op.client_id), s))
    ∧ (∀ (cl : ClientClaim) (s : EngineState),
       lockedIn s cl.client_id = true →
       cl.process s = (some (TransactionError.LockedAccount cl.client_id), s)) := by
  refine ⟨chargeback_locks, locked_mono, processAll_locked_mono, ?_, ?_⟩
  · intro op s hl hfresh
    obtain ⟨client, hacc, hlk⟩ := (lockedIn_iff s op.client_id).mp hl
    exact moneyOp_locked op s client hacc hlk hfresh
  · intro cl s hl
    obtain ⟨client, hacc, hlk⟩ := (lockedIn_iff s cl.client_id).mp hl
    exact claim_locked cl s client hacc hlk

/-- C5 witness: on `lockedState`, a fresh deposit and a claim against the
locked client 1 both fail with `LockedAccount`. -/
theorem spec_C5_chargeback_terminality_witness :
    (lockedIn lockedState 1 = true
      ∧ lockedState.register.contains 9 = false
      ∧ (MoneyOperation.mk 1 9 false (OperationKind.Deposit 5)).process
          lockedState
          = (some (TransactionError.LockedAccount 1), lockedState))
    ∧ (ClientClaim.mk 1 1 ClientClaimKind.Chargeback).process lockedState
        = (some (TransactionError.LockedAccount 1), lockedState) :=
  ⟨⟨rfl, rfl,
      spec_C5_chargeback_terminality.2.2.2.1
        (MoneyOperation.mk 1 9 false (OperationKind.Deposit 5))
        lockedState rfl rfl⟩,
    spec_C5_chargeback_terminality.2.2.2.2
      (ClientClaim.mk 1 1 ClientClaimKind.Chargeback) lockedState rfl⟩

/-- C6: a Chargeback can only succeed when the referenced operation exists
and its `disputed` flag is currently `false`; and when the operation and the
claimed unlocked account are both found, every (claim kind, dispute state)
combination outside the three valid ones fails with
`WrongTransactionState`. -/
theorem spec_C6_state_machine :
    (∀ (cl : ClientClaim) (s s' : EngineState),
       cl.claim_kind = ClientClaimKind.Chargeback →
       cl.process s = (none, s') →
       ∃ op, s.register.get_operation cl.transaction_id = some op ∧
         op.disputed = false)
    ∧ (∀ (cl : ClientClaim) (s : EngineState) (op : MoneyOperation)
         (client : Client),
       s.register.get_operation cl.transaction_id = some op →
       s.accounts.get_account cl.client_id = some client →
       client.locked = false →
       validCombo cl.claim_kind op.disputed = false →
       cl.process s = (some TransactionError.WrongTransactionState, s)) :=
  ⟨chargeback_success_undisputed, claim_wrong_state⟩

/-- C6 witness: on `disputedState` a Chargeback of the already-disputed
deposit fails with `WrongTransactionState`. -/
theorem spec_C6_state_machine_witness :
    disputedState.register.get_operation 1 = some disputedOp1
    ∧ disputedState.accounts.get_account 1 = some clientA
    ∧ clientA.locked = false
    ∧ validCombo ClientClaimKind.Chargeback disputedOp1.disputed = false
    ∧ (ClientClaim.mk 1 1 ClientClaimKind.Chargeback).process disputedState
        = (some TransactionError.WrongTransactionState, disputedState) :=
  ⟨rfl, rfl, rfl, rfl,
    spec_C6_state_machine.2 (ClientClaim.mk 1 1 ClientClaimKind.Chargeback)
      disputedState disputedOp1 clientA rfl rfl rfl rfl⟩

theorem moneyOp_success_contains (op : MoneyOperation) (s : EngineState)
    (hp : (op.process s).1 = none) :
    ((op.process s).2).register.contains op.transaction_id = true := by
  unfold MoneyOperation.process at hp ⊢
  repeat' split
  all_goals
    simp_all [MoneyOperationsRegister.contains, MoneyOperationsRegister.insert]

/-- C7: a money operation whose transaction id is already registered always
fails with `AlreadyExists` and leaves the state untouched; a successful money
operation registers its id; and registration is permanent — it survives every
further record, so the second use of an id is rejected at any later point,
leaving exactly the state after the first. -/
theorem spec_C7_duplicate_rejection :
    (∀ (op : MoneyOperation) (s : EngineState),
       s.register.contains op.transaction_id = true →
       op.process s
         = (some (TransactionError.AlreadyExists op.transaction_id), s))
    ∧ (∀ (op : MoneyOperation) (s : EngineState),
       (op.process s).1 = none →
       ((op.process s).2).register.contains op.transaction_id = true)
    ∧ (∀ (r : TransactionOrder) (s : EngineState) (t : TransactionId),
       s.register.contains t = true →
       ((r.process s).2).register.contains t = true)
    ∧ (∀ (rs : List TransactionOrder) (s : EngineState) (t : TransactionId),
       s.register.contains t = true →
       (processAll rs s).register.contains t = true) :=
  ⟨moneyOp_dup, moneyOp_success_contains, order_register_mono,
    processAll_register_mono⟩

/-- C7 witness: on `fixtureState`, re-submitting transaction id 1 as a fresh
deposit fails with `AlreadyExists` and changes nothing. -/
theorem spec_C7_duplicate_rejection_witness :
    fixtureState.register.contains 1 = true
    ∧ (MoneyOperation.mk 1 1 false (OperationKind.Deposit 2)).process
        fixtureState
        = (some (TransactionError.AlreadyExists 1), fixtureState) :=
  ⟨rfl,
    spec_C7_duplicate_rejection.1
      (MoneyOperation.mk 1 1 false (OperationKind.Deposit 2)) fixtureState rfl⟩

/-- C8: for a record sequence containing only money operations, the final
available balance of every client, starting from the empty state, is the sum
of that client's accepted deposit amounts minus the sum of that client's
accepted withdrawal amounts; rejected operations contribute nothing. -/
theorem spec_C8_balance_conservation (rs : List TransactionOrder)
    (hmo : ∀ r ∈ rs, isMoneyOp r = true) (c : ClientId) :
    availOf (processAll rs initialState) c
      = acceptedDepositSum c rs initialState
        - acceptedWithdrawalSum c rs initialState := by
  have hgen := availOf_processAll rs initialState c hmo
  simpa [availOf, initialState] using hgen

def sampleOps : List TransactionOrder :=
  [ TransactionOrder.MoneyOperation
      (MoneyOperation.mk 1 1 false (OperationKind.Deposit 5)),
    TransactionOrder.MoneyOperation
      (MoneyOperation.mk 1 2 false (OperationKind.Withdrawal 3)),
    TransactionOrder.MoneyOperation
      (MoneyOperation.mk 1 3 false (OperationKind.Withdrawal 10)) ]

/-- C8 witness: deposit 5, withdraw 3, and a rejected withdrawal of 10 leave
client 1 with available = 5 − 3. -/
theorem spec_C8_balance_conservation_witness :
    (∀ r ∈ sampleOps, isMoneyOp r = true)
    ∧ availOf (processAll sampleOps initialState) 1
        = acceptedDepositSum 1 sampleOps initialState
          - acceptedWithdrawalSum 1 sampleOps initialState
    ∧ availOf (processAll sampleOps initialState) 1 = 2 := by
  refine ⟨?_, spec_C8_balance_conservation sampleOps ?_ 1, ?_⟩
  · intro r hr
    fin_cases hr <;> rfl
  · intro r hr
    fin_cases hr <;> rfl
  · norm_num [sampleOps, processAll, TransactionOrder.process,
      MoneyOperation.process, initialState, availOf,
      MoneyOperationsRegister.contains, MoneyOperationsRegister.insert,
      ClientAccounts.get_account, ClientAccounts.create_client,
      ClientAccounts.update_account, Client.has_enough_funds,
      Client.increase_funds, Client.decrease_funds]

/-- C9: starting from the empty state, after processing the records obtained
from any list of input lines through the boundary conversion (which enforces
`amount ≥ 0` on money operations), every existing account satisfies
`held_funds ≥ 0`. -/
theorem spec_C9_held_nonneg (lines : List TransactionLine) :
    heldNonneg
      (processAll (lines.filterMap TransactionOrder.try_from) initialState) := by
  refine (processAll_nonneg _ initialState ?_ initialState_heldNonneg
    initialState_registerNonneg).1
  intro r hr
  obtain ⟨line, hline, he⟩ := List.mem_filterMap.mp hr
  exact try_from_nonneg line r he

def sampleLines : List TransactionLine :=
  [ { transaction_type := TransactionKind.Deposit, client_id := 1,
      transaction_id := 1, amount := some 5 },
    { transaction_type := TransactionKind.Dispute, client_id := 1,
      transaction_id := 1, amount := none } ]

/-- C9 witness: the invariant instantiated on a concrete run (a deposit
followed by a dispute of it). -/
theorem spec_C9_held_nonneg_witness :
    heldNonneg
      (processAll (sampleLines.filterMap TransactionOrder.try_from)
        initialState) :=
  spec_C9_held_nonneg sampleLines

/-- C10: claim processing never compares the claim's `client_id` with the
referenced operation's owner: (i) a claim never touches any account other
than the one named by its own `client_id`; (ii) when the operation exists but
the claimed client has no account, the claim fails with `MissingClient`;
(iii) a Dispute whose `client_id` differs from the operation's owner
nevertheless succeeds and applies the dispute mutation to the claimed
client's account. -/
theorem spec_C10_no_cross_check :
    (∀ (cl : ClientClaim) (s : EngineState) (c : ClientId),
       c ≠ cl.client_id → ((cl.process s).2).accounts c = s.accounts c)
    ∧ (∀ (cl : ClientClaim) (s : EngineState) (op : MoneyOperation),
       s.register.get_operation cl.transaction_id = some op →
       s.accounts.get_account cl.client_id = none →
       cl.process s = (some (TransactionError.MissingClient cl.client_id), s))
    ∧ (∀ (cl : ClientClaim) (s : EngineState) (op : MoneyOperation)
         (client : Client),
       cl.claim_kind = ClientClaimKind.Dispute →
       s.register.get_operation cl.transaction_id = some op →
       op.client_id ≠ cl.client_id →
       s.accounts.get_account cl.client_id = some client →
       client.locked = false →
       op.disputed = false →
       (cl.process s).1 = none ∧
       ((cl.process s).2).accounts cl.client_id
         = some (match op.operation_kind with
                 | OperationKind.Deposit a =>
                     (client.hold_funds a).decrease_funds a
                 | OperationKind.Withdrawal a => client.hold_funds a)) := by
  refine ⟨claim_accounts_other, claim_missing_client, ?_⟩
  intro cl s op client hck hr hne hacc hlk hdisp
  have hred := claim_dispute_found cl s op client hck hr hacc hlk hdisp
  constructor
  · rw [hred]
  · rw [hred]
    simp [ClientAccounts.update_account]

/-- C10 witness: on `mismatchState`, client 2's Dispute of client 1's deposit
succeeds and mutates client 2's account, while client 1's account is left
alone. -/
theorem spec_C10_no_cross_check_witness :
    (mismatchState.register.get_operation 1 = some depositOp1
      ∧ depositOp1.client_id ≠ 2
      ∧ mismatchState.accounts.get_account 2 = some clientB
      ∧ clientB.locked = false
      ∧ depositOp1.disputed = false
      ∧ ((ClientClaim.mk 2 1 ClientClaimKind.Dispute).process mismatchState).1
          = none)
    ∧ (((ClientClaim.mk 2 1 ClientClaimKind.Dispute).process
          mismatchState).2).accounts 1 = mismatchState.accounts 1 :=
  ⟨⟨rfl, by decide, rfl, rfl, rfl,
      (spec_C10_no_cross_check.2.2 (ClientClaim.mk 2 1 ClientClaimKind.Dispute)
        mismatchState depositOp1 clientB rfl rfl (by decide) rfl rfl rfl).1⟩,
    spec_C10_no_cross_check.1 (ClientClaim.mk 2 1 ClientClaimKind.Dispute)
      mismatchState 1 (by decide)⟩
